import Mathlib

/-!
Verification of the `deafrica-sandbox-notebooks` training-data extraction
pipeline (`Real_world_examples/Scalable_machine_learning/1_Extract_training_data.ipynb`).

The notebook's heavy lifting is done by `collect_training_data`, a function of
this repository's tools library that is not present under `src/`; following the
reference design in the specification, the **GeometrySampler** core is modelled
here from the spec.  The notebook's own column-slicing export logic (cells 27
and 31) is embedded directly from the source.
-/

deriving instance DecidableEq for Except

namespace GeometrySampler

/-- An exact rational represented as an unnormalized numerator/denominator
pair (all arithmetic on it is structural integer arithmetic). -/
structure Frac where
  num : Int
  den : Int
deriving DecidableEq

def Frac.ofInt (n : Int) : Frac := { num := n, den := 1 }

def Frac.addF (x y : Frac) : Frac :=
  { num := x.num * y.den + y.num * x.den, den := x.den * y.den }

/-- Comparison of fractions with positive denominators. -/
def Frac.leF (x y : Frac) : Prop := x.num * y.den ≤ y.num * x.den

instance : DecidableRel Frac.leF := fun x y => by
  unfold Frac.leF
  infer_instance

def Frac.maxF (x y : Frac) : Frac := if x.leF y then y else x

def Frac.minF (x y : Frac) : Frac := if x.leF y then x else y

/-- A numeric cell value: either a finite rational, or an invalid value
(the spec's "not-a-number or infinite" values, collapsed to one marker). -/
inductive Val where
  | valid (q : Frac)
  | invalid
deriving DecidableEq

/-- Modelled from the spec: the optional aggregation mode
`mean|median|max|min|none` applied across all pixels inside a geometry. -/
inductive ZonalStat where
  | none
  | mean
  | median
  | max
  | min
deriving DecidableEq

/-- Modelled from the spec: a FeatureGrid is a 2-D array of named numeric
bands with no time dimension (a retained time dimension is recorded so the
sampler can reject it); pixels are rows of per-band values, and the grid's
coordinate axes provide a representative centroid. -/
structure FeatureGrid where
  bands : List String
  hasTimeDim : Bool
  pixels : List (List Val)
  centroid : Frac × Frac
deriving DecidableEq

/-- Result of one invocation of the caller-supplied feature function:
either a raw I/O failure or a grid. -/
inductive FFResult where
  | readError
  | grid (g : FeatureGrid)
deriving DecidableEq

/-- Modelled from the spec: the caller-supplied feature function, as seen by
the sampler.  It is indexed by geometry position and by attempt number, so
that retries of the same geometry may observe different results. -/
def FeatureFunc := Nat → Nat → FFResult

/-- Modelled from the spec: the shared query; the only property the sampler
inspects is whether spatial extent fields were (erroneously) supplied. -/
structure FeatureQuery where
  hasSpatialFields : Bool
deriving DecidableEq

/-- Modelled from the spec: the sampler settings shared by all geometries
(everything of the `extract` contract except the degree of parallelism). -/
structure Settings where
  query : FeatureQuery
  zonalStat : ZonalStat
  returnCoords : Bool
  retries : Nat
  nullThreshold : Frac
deriving DecidableEq

/-- Modelled from the spec: full sampler configuration; `ncpus = 1` means
fully sequential, `ncpus > 1` fans work out across a worker pool. -/
structure Config where
  settings : Settings
  ncpus : Nat
deriving DecidableEq

/-- Modelled from the spec: label + feature vector (+ optional centroid
x/y) for one geometry. -/
structure SampleRecord where
  label : Int
  features : List Val
  coords : Option (Frac × Frac)
deriving DecidableEq

/-- Modelled from the spec: the ordered records that succeeded, the manifest
of column names, the manifest band names, and the dropped-geometry count. -/
structure ExtractionResult where
  columnNames : List String
  bands : List String
  records : List SampleRecord
  dropped : Nat
deriving DecidableEq

/-- Modelled from the spec: run-level failures.  Per-geometry read failures
are never run-level failures. -/
inductive RunError where
  | configurationError
  | contractViolation
deriving DecidableEq

/-- Outcome of processing one geometry: permanently dropped after retries,
fatal structural contract violation, or success with band names and records. -/
inductive GeomOutcome where
  | dropped
  | fatal
  | ok (bands : List String) (recs : List SampleRecord)
deriving DecidableEq

def isInvalid : Val → Bool
  | .invalid => true
  | .valid _ => false

def validVal : Val → Option Frac
  | .valid q => some q
  | .invalid => none

def fracSum (l : List Frac) : Frac := l.foldl Frac.addF (Frac.ofInt 0)

def fracMean (l : List Frac) : Frac :=
  { num := (fracSum l).num, den := (fracSum l).den * (l.length : Int) }

def fracMedian (l : List Frac) : Frac :=
  let s := List.insertionSort Frac.leF l
  if l.length % 2 = 1 then s.getD (l.length / 2) (Frac.ofInt 0)
  else Frac.addF (s.getD (l.length / 2 - 1) (Frac.ofInt 0))
    (s.getD (l.length / 2) (Frac.ofInt 0))

def fracMax (l : List Frac) : Frac := l.foldl Frac.maxF (l.headD (Frac.ofInt 0))

def fracMin (l : List Frac) : Frac := l.foldl Frac.minF (l.headD (Frac.ofInt 0))

/-- The chosen statistic on a list of finite values (`none` is never used
with a nonempty aggregation; it is given an arbitrary total value). -/
def aggOp : ZonalStat → List Frac → Frac
  | .mean, l => fracMean l
  | .median, l => fracMedian l
  | .max, l => fracMax l
  | .min, l => fracMin l
  | .none, l => fracMean l

/-- Aggregate one band's pixel column; an empty column or any invalid pixel
makes the aggregate invalid (NaN propagation). -/
def aggVal (zs : ZonalStat) (col : List Val) : Val :=
  if col.isEmpty || col.any isInvalid then .invalid
  else .valid (aggOp zs (col.filterMap validVal))

/-- One pixel as a rectangular row of `bands.length` values. -/
def pixelRow (bands : List String) (p : List Val) : List Val :=
  (List.range bands.length).map fun j => p.getD j .invalid

/-- The column of values of band `j` across all pixels of the grid. -/
def bandColumn (g : FeatureGrid) (j : Nat) : List Val :=
  g.pixels.map fun p => p.getD j .invalid

/-- Modelled from the spec, step 3 of the per-geometry procedure: if
`zonal_stat != none`, reduce the grid across the spatial dimensions with the
chosen statistic; else flatten the grid to per-pixel rows. -/
def reduceGrid (s : Settings) (g : FeatureGrid) : List (List Val) :=
  match s.zonalStat with
  | .none => g.pixels.map (pixelRow g.bands)
  | zs => [(List.range g.bands.length).map fun j => aggVal zs (bandColumn g j)]

def invalidCount (rows : List (List Val)) : Nat :=
  (rows.map fun r => r.countP isInvalid).sum

def totalCount (rows : List (List Val)) : Nat :=
  (rows.map List.length).sum

/-- Modelled from the spec, step 4: the fraction of invalid numeric values
in the result exceeds `null_threshold` (the threshold is `num/den` with a
positive denominator, so the comparison is cross-multiplied). -/
def tooManyInvalid (s : Settings) (rows : List (List Val)) : Bool :=
  decide ((invalidCount rows : Int) * s.nullThreshold.den >
    s.nullThreshold.num * (totalCount rows : Int))

/-- Modelled from the spec, step 6: tag one successful row with the
geometry's integer label and, when requested, the grid centroid. -/
def mkRecord (s : Settings) (lbl : Int) (g : FeatureGrid) (row : List Val) : SampleRecord :=
  { label := lbl, features := row, coords := if s.returnCoords then some g.centroid else none }

/-- All records of one geometry: one per reduced row. -/
def mkRecords (s : Settings) (lbl : Int) (g : FeatureGrid) (rows : List (List Val)) :
    List SampleRecord :=
  rows.map (mkRecord s lbl g)

/-- Result of one attempt on one geometry. -/
inductive AttemptRes where
  | retry
  | fatal
  | success (bands : List String) (recs : List SampleRecord)

/-- One attempt: a raw read failure or an excessive invalid fraction is
retriable; a grid retaining a time dimension is a structural violation. -/
def attemptStep (s : Settings) (lbl : Int) (ff : FeatureFunc) (i a : Nat) : AttemptRes :=
  match ff i a with
  | .readError => .retry
  | .grid g =>
    if g.hasTimeDim then .fatal
    else if tooManyInvalid s (reduceGrid s g) then .retry
    else .success g.bands (mkRecords s lbl g (reduceGrid s g))

/-- An attempt that fails recoverably: a raw read failure, or a conforming
grid whose invalid-value fraction exceeds the threshold. -/
def attemptRetryable (s : Settings) (ff : FeatureFunc) (i a : Nat) : Prop :=
  ff i a = .readError ∨
    ∃ g, ff i a = .grid g ∧ g.hasTimeDim = false ∧
      tooManyInvalid s (reduceGrid s g) = true

/-- Attempt loop starting at attempt `a` with `fuel` attempts remaining;
a geometry still failing when fuel runs out is dropped. -/
def runAttempts (s : Settings) (lbl : Int) (ff : FeatureFunc) (i : Nat) :
    Nat → Nat → GeomOutcome
  | _, 0 => .dropped
  | a, fuel + 1 =>
    match attemptStep s lbl ff i a with
    | .retry => runAttempts s lbl ff i (a + 1) fuel
    | .fatal => .fatal
    | .success b r => .ok b r

/-- Modelled from the spec, step 5: the initial attempt plus up to `retries`
resubmissions. -/
def processGeometry (s : Settings) (lbl : Int) (ff : FeatureFunc) (i : Nat) : GeomOutcome :=
  runAttempts s lbl ff i 0 (s.retries + 1)

/-- The integer label of geometry `i` (configuration validation has already
ruled out missing labels when this is used). -/
def labelAt (geoms : List (Option Int)) (i : Nat) : Int :=
  (geoms.getD i none).getD 0

def outcomeAt (s : Settings) (geoms : List (Option Int)) (ff : FeatureFunc)
    (i : Nat) : GeomOutcome :=
  processGeometry s (labelAt geoms i) ff i

/-- Modelled from the spec's concurrency section: workers complete in the
order given by `sched`, and the collector re-places each completed outcome
into the slot of its input index, so the assembled list is in input order. -/
def collectOutcomes (sched : List Nat) (out : Nat → GeomOutcome) (n : Nat) :
    List GeomOutcome :=
  (List.range n).map fun i =>
    ((sched.map fun j => (j, out j)).lookup i).getD .dropped

def GeomOutcome.recsOf : GeomOutcome → List SampleRecord
  | .ok _ r => r
  | _ => []

def GeomOutcome.bandsOf : GeomOutcome → Option (List String)
  | .ok b _ => some b
  | _ => none

def GeomOutcome.isFatal : GeomOutcome → Bool
  | .fatal => true
  | _ => false

def GeomOutcome.isDropped : GeomOutcome → Bool
  | .dropped => true
  | _ => false

/-- All band lists in the list agree with the first one. -/
def allEqHead : List (List String) → Bool
  | [] => true
  | b :: rest => rest.all fun b' => decide (b' = b)

/-- Modelled from the spec's aggregation paragraph: a geometry with a fatal
structural violation, or successful geometries with diverging band sets,
abort the run; otherwise assemble records in input order, the manifest, and
the dropped count. -/
def assembleRun (s : Settings) (assembled : List GeomOutcome) :
    Except RunError ExtractionResult :=
  if assembled.any GeomOutcome.isFatal then .error .contractViolation
  else if allEqHead (assembled.filterMap GeomOutcome.bandsOf) then
    .ok { columnNames := "label" :: ((assembled.filterMap GeomOutcome.bandsOf).headD [] ++
            (if s.returnCoords then ["x_coord", "y_coord"] else [])),
          bands := (assembled.filterMap GeomOutcome.bandsOf).headD [],
          records := (assembled.map GeomOutcome.recsOf).flatten,
          dropped := assembled.countP GeomOutcome.isDropped }
  else .error .contractViolation

/-- Modelled from the spec's error taxonomy: invalid caller input — empty
geometry collection, non-integer labels, or spatial fields present in the
shared query. -/
def configBad (s : Settings) (geoms : List (Option Int)) : Bool :=
  geoms.isEmpty || geoms.any Option.isNone || s.query.hasSpatialFields

def extractCore (s : Settings) (geoms : List (Option Int)) (ff : FeatureFunc)
    (sched : List Nat) : Except RunError ExtractionResult :=
  if configBad s geoms then .error .configurationError
  else assembleRun s (collectOutcomes sched (outcomeAt s geoms ff) geoms.length)

/-- Modelled from the spec:
`extract(geometries, query, feature_func, zonal_stat, return_coords, ncpus,
retries, null_threshold) -> ExtractionResult` (the `collect_training_data`
contract).  `sched` is the completion order of the worker pool, a permutation
of the geometry indices; `ncpus = 1` runs fully sequentially, so the
completion order is then the input order. -/
def extract (c : Config) (geoms : List (Option Int)) (ff : FeatureFunc)
    (sched : List Nat) : Except RunError ExtractionResult :=
  extractCore c.settings geoms ff
    (if c.ncpus = 1 then List.range geoms.length else sched)

end GeometrySampler

namespace TrainingNotebook

/-- Python's `list.index`: the first position whose element equals `v`. -/
def pyIndex (l : List String) (v : String) : Nat :=
  l.findIdx fun x => decide (x = v)

/-- Cell 31 of the notebook:
`model_col_indices = [column_names.index(var_name) for var_name in column_names[0:-2]]`. -/
def model_col_indices (column_names : List String) : List Nat :=
  (column_names.take (column_names.length - 2)).map (pyIndex column_names)

/-- NumPy fancy indexing `model_input[:, idxs]`: select the listed columns
of every row (out-of-range reads, which NumPy would reject, return `d`). -/
def selectCols {A : Type} (d : A) (m : List (List A)) (idxs : List Nat) : List (List A) :=
  m.map fun row => idxs.map fun j => row.getD j d

/-- The matrix with the last two columns of every row removed. -/
def dropLastTwoCols {A : Type} (m : List (List A)) : List (List A) :=
  m.map fun row => row.take (row.length - 2)

end TrainingNotebook

namespace GeometrySampler

/-- A one-pixel conforming grid over bands `a`, `b` used in concrete checks. -/
def sampleGrid : FeatureGrid :=
  { bands := ["a", "b"], hasTimeDim := false,
    pixels := [[.valid (Frac.ofInt 1), .valid (Frac.ofInt 2)]],
    centroid := (Frac.ofInt 3, Frac.ofInt 4) }

/-- A conforming feature function: every geometry, every attempt, yields
`sampleGrid`. -/
def sampleFF : FeatureFunc := fun _ _ => .grid sampleGrid

/-- The spec's retry scenario: geometry 1 raises a read error on its first
two attempts and succeeds from the third on; other geometries always
succeed. -/
def retryFF : FeatureFunc := fun i a =>
  if i = 1 && a < 2 then .readError else .grid sampleGrid

/-- A feature function returning band set `[a, b]` for geometry 0 and
`[a, c]` for every other geometry. -/
def mismatchFF : FeatureFunc := fun i _ =>
  if i = 0 then .grid sampleGrid
  else .grid { bands := ["a", "c"], hasTimeDim := false,
               pixels := [[.valid (Frac.ofInt 1), .valid (Frac.ofInt 2)]],
               centroid := (Frac.ofInt 3, Frac.ofInt 4) }

/-- A one-pixel grid whose values are all invalid. -/
def allInvalidGrid : FeatureGrid :=
  { bands := ["a", "b"], hasTimeDim := false,
    pixels := [[.invalid, .invalid]], centroid := (Frac.ofInt 3, Frac.ofInt 4) }

/-- A feature function whose grids are 100% invalid on every attempt. -/
def allInvalidFF : FeatureFunc := fun _ _ => .grid allInvalidGrid

/-- A one-pixel grid carrying one invalid and one valid value. -/
def halfInvalidGrid : FeatureGrid :=
  { bands := ["a", "b"], hasTimeDim := false,
    pixels := [[.invalid, .valid (Frac.ofInt 2)]],
    centroid := (Frac.ofInt 3, Frac.ofInt 4) }

/-- A feature function whose grids carry one invalid and one valid value. -/
def halfInvalidFF : FeatureFunc := fun _ _ => .grid halfInvalidGrid

/-- A two-pixel conforming grid. -/
def twoPixelGrid : FeatureGrid :=
  { bands := ["a", "b"], hasTimeDim := false,
    pixels := [[.valid (Frac.ofInt 1), .valid (Frac.ofInt 2)],
               [.valid (Frac.ofInt 5), .valid (Frac.ofInt 6)]],
    centroid := (Frac.ofInt 3, Frac.ofInt 4) }

/-- A feature function returning a two-pixel conforming grid. -/
def twoPixelFF : FeatureFunc := fun _ _ => .grid twoPixelGrid

/-- Sample settings: zonal mean, coordinates requested, three retries,
null threshold 1/2. -/
def sampleSettings : Settings :=
  { query := { hasSpatialFields := false }, zonalStat := .mean,
    returnCoords := true, retries := 3, nullThreshold := { num := 1, den := 2 } }

/-- The record produced for one geometry by `sampleFF` under
`sampleSettings`. -/
def sampleRecordOf (lbl : Int) : SampleRecord :=
  { label := lbl, features := [.valid (Frac.ofInt 1), .valid (Frac.ofInt 2)],
    coords := some (Frac.ofInt 3, Frac.ofInt 4) }

/-- The result of running two geometries labelled 10 and 20 through
`sampleFF` under `sampleSettings`. -/
def sampleResultTwo : ExtractionResult :=
  { columnNames := ["label", "a", "b", "x_coord", "y_coord"], bands := ["a", "b"],
    records := [sampleRecordOf 10, sampleRecordOf 20], dropped := 0 }

/-- The result of running two geometries through `allInvalidFF` under
`sampleSettings`: both are dropped, no records survive. -/
def allDroppedResult : ExtractionResult :=
  { columnNames := ["label", "x_coord", "y_coord"], bands := [],
    records := [], dropped := 2 }

/-- The result of running three geometries labelled 10, 20, 30 through
`retryFF` under `sampleSettings`: the read errors of geometry 1 are
recovered, nothing is dropped. -/
def retryResultThree : ExtractionResult :=
  { columnNames := ["label", "a", "b", "x_coord", "y_coord"], bands := ["a", "b"],
    records := [sampleRecordOf 10, sampleRecordOf 20, sampleRecordOf 30], dropped := 0 }

theorem lookup_map_self (out : Nat → GeomOutcome) (sched : List Nat) (i : Nat) :
    ((sched.map fun j => (j, out j)).lookup i) =
      if i ∈ sched then some (out i) else none := by
  induction sched with
  | nil => simp
  | cons j t ih =>
    by_cases hij : i = j
    · subst hij
      simp [List.lookup_cons]
    · have : (i == j) = false := beq_false_of_ne hij
      simp [List.lookup_cons, this, ih, hij]

theorem length_collectOutcomes (sched : List Nat) (out : Nat → GeomOutcome) (n : Nat) :
    (collectOutcomes sched out n).length = n := by
  simp [collectOutcomes]

theorem collectOutcomes_perm (sched : List Nat) (out : Nat → GeomOutcome) (n : Nat)
    (h : sched.Perm (List.range n)) :
    collectOutcomes sched out n = (List.range n).map out := by
  unfold collectOutcomes
  refine List.map_congr_left fun i hi => ?_
  have hmem : i ∈ sched := h.mem_iff.2 hi
  rw [lookup_map_self, if_pos hmem]
  rfl

theorem mem_collectOutcomes (sched : List Nat) (out : Nat → GeomOutcome) (n : Nat)
    (o : GeomOutcome) (ho : o ∈ collectOutcomes sched out n) :
    o = .dropped ∨ ∃ i, i < n ∧ o = out i := by
  unfold collectOutcomes at ho
  rcases List.mem_map.1 ho with ⟨i, hi, hoi⟩
  rw [lookup_map_self] at hoi
  by_cases hmem : i ∈ sched
  · right
    exact ⟨i, List.mem_range.1 hi, by rw [← hoi, if_pos hmem]; rfl⟩
  · left
    rw [← hoi, if_neg hmem]
    rfl

theorem allEqHead_mem (l : List (List String)) (h : allEqHead l = true)
    (b : List String) (hb : b ∈ l) : b = l.headD [] := by
  cases l with
  | nil => cases hb
  | cons hd t =>
    rcases List.mem_cons.1 hb with rfl | hbt
    · rfl
    · have := List.all_eq_true.1 h b hbt
      exact of_decide_eq_true this

theorem allEqHead_false_of_ne (l : List (List String)) (b₁ b₂ : List String)
    (h₁ : b₁ ∈ l) (h₂ : b₂ ∈ l) (hne : b₁ ≠ b₂) : allEqHead l = false := by
  by_contra h
  have h' : allEqHead l = true := by
    cases hb : allEqHead l
    · exact absurd hb h
    · rfl
  exact hne ((allEqHead_mem l h' b₁ h₁).trans (allEqHead_mem l h' b₂ h₂).symm)

end GeometrySampler

namespace GeometrySampler

theorem attemptStep_success (s : Settings) (lbl : Int) (ff : FeatureFunc) (i a : Nat)
    (g : FeatureGrid) (hg : ff i a = .grid g) (ht : g.hasTimeDim = false)
    (hm : tooManyInvalid s (reduceGrid s g) = false) :
    attemptStep s lbl ff i a = .success g.bands (mkRecords s lbl g (reduceGrid s g)) := by
  unfold attemptStep
  rw [hg]
  simp [ht, hm]

theorem attemptStep_success_inv (s : Settings) (lbl : Int) (ff : FeatureFunc) (i a : Nat)
    (b : List String) (r : List SampleRecord)
    (h : attemptStep s lbl ff i a = .success b r) :
    ∃ g, ff i a = .grid g ∧ g.hasTimeDim = false ∧
      tooManyInvalid s (reduceGrid s g) = false ∧
      b = g.bands ∧ r = mkRecords s lbl g (reduceGrid s g) := by
  unfold attemptStep at h
  split at h
  · cases h
  · rename_i g hff
    split at h
    · cases h
    · rename_i ht
      split at h
      · cases h
      · rename_i hm
        injection h with h1 h2
        refine ⟨g, hff, ?_, ?_, h1.symm, h2.symm⟩
        · simpa using ht
        · simpa using hm

theorem attemptStep_retry_iff (s : Settings) (lbl : Int) (ff : FeatureFunc) (i a : Nat) :
    attemptStep s lbl ff i a = .retry ↔ attemptRetryable s ff i a := by
  unfold attemptStep attemptRetryable
  cases hff : ff i a with
  | readError => simp
  | grid g =>
    cases ht : g.hasTimeDim with
    | true => simp [ht]
    | false =>
      cases hm : tooManyInvalid s (reduceGrid s g) with
      | true => simp [ht, hm]
      | false => simp [ht, hm]

theorem runAttempts_dropped_iff (s : Settings) (lbl : Int) (ff : FeatureFunc) (i : Nat) :
    ∀ (fuel a : Nat), runAttempts s lbl ff i a fuel = .dropped ↔
      ∀ k < fuel, attemptStep s lbl ff i (a + k) = .retry := by
  intro fuel
  induction fuel with
  | zero => intro a; simp [runAttempts]
  | succ n ih =>
    intro a
    unfold runAttempts
    cases h : attemptStep s lbl ff i a with
    | retry =>
      rw [ih (a + 1)]
      constructor
      · intro hall k hk
        cases k with
        | zero => simpa using h
        | succ m =>
          have := hall m (Nat.lt_of_succ_lt_succ hk)
          simpa [Nat.add_assoc, Nat.add_comm 1 m] using this
      · intro hall k hk
        have := hall (k + 1) (Nat.succ_lt_succ hk)
        simpa [Nat.add_assoc, Nat.add_comm 1 k] using this
    | fatal =>
      simp only [reduceCtorEq, false_iff]
      intro hall
      have := hall 0 (Nat.succ_pos n)
      rw [Nat.add_zero] at this
      rw [h] at this
      cases this
    | success b r =>
      simp only [reduceCtorEq, false_iff]
      intro hall
      have := hall 0 (Nat.succ_pos n)
      rw [Nat.add_zero] at this
      rw [h] at this
      cases this

theorem runAttempts_first_success (s : Settings) (lbl : Int) (ff : FeatureFunc) (i : Nat)
    (b : List String) (r : List SampleRecord) :
    ∀ (fuel a k : Nat), k < fuel →
      (∀ m < k, attemptStep s lbl ff i (a + m) = .retry) →
      attemptStep s lbl ff i (a + k) = .success b r →
      runAttempts s lbl ff i a fuel = .ok b r := by
  intro fuel
  induction fuel with
  | zero => intro a k hk; exact absurd hk (Nat.not_lt_zero k)
  | succ n ih =>
    intro a k hk hm hs
    cases k with
    | zero =>
      rw [Nat.add_zero] at hs
      unfold runAttempts
      rw [hs]
    | succ m =>
      have h0 : attemptStep s lbl ff i a = .retry := by
        have := hm 0 (Nat.succ_pos m)
        rwa [Nat.add_zero] at this
      unfold runAttempts
      rw [h0]
      refine ih (a + 1) m (Nat.lt_of_succ_lt_succ hk) ?_ ?_
      · intro j hj
        have := hm (j + 1) (Nat.succ_lt_succ hj)
        simpa [Nat.add_assoc, Nat.add_comm 1 j] using this
      · simpa [Nat.add_assoc, Nat.add_comm 1 m] using hs

theorem runAttempts_ok_inv (s : Settings) (lbl : Int) (ff : FeatureFunc) (i : Nat)
    (b : List String) (r : List SampleRecord) :
    ∀ (fuel a : Nat), runAttempts s lbl ff i a fuel = .ok b r →
      ∃ a', attemptStep s lbl ff i a' = .success b r := by
  intro fuel
  induction fuel with
  | zero => intro a h; cases h
  | succ n ih =>
    intro a h
    unfold runAttempts at h
    cases hs : attemptStep s lbl ff i a with
    | retry => rw [hs] at h; exact ih (a + 1) h
    | fatal => rw [hs] at h; cases h
    | success b' r' =>
      rw [hs] at h
      injection h with h1 h2
      exact ⟨a, by rw [hs, h1, h2]⟩

theorem processGeometry_ok_inv (s : Settings) (lbl : Int) (ff : FeatureFunc) (i : Nat)
    (b : List String) (r : List SampleRecord)
    (h : processGeometry s lbl ff i = .ok b r) :
    ∃ g, g.hasTimeDim = false ∧ tooManyInvalid s (reduceGrid s g) = false ∧
      b = g.bands ∧ r = mkRecords s lbl g (reduceGrid s g) := by
  rcases runAttempts_ok_inv s lbl ff i b r (s.retries + 1) 0 h with ⟨a', ha'⟩
  rcases attemptStep_success_inv s lbl ff i a' b r ha' with ⟨g, _, ht, hm, hb, hr⟩
  exact ⟨g, ht, hm, hb, hr⟩

theorem length_mkRecords (s : Settings) (lbl : Int) (g : FeatureGrid)
    (rows : List (List Val)) : (mkRecords s lbl g rows).length = rows.length := by
  simp [mkRecords]

theorem mem_mkRecords (s : Settings) (lbl : Int) (g : FeatureGrid)
    (rows : List (List Val)) (rec : SampleRecord) (h : rec ∈ mkRecords s lbl g rows) :
    ∃ row ∈ rows, rec = mkRecord s lbl g row := by
  rcases List.mem_map.1 h with ⟨row, hrow, hrec⟩
  exact ⟨row, hrow, hrec.symm⟩

theorem reduceGrid_length_of_stat (s : Settings) (g : FeatureGrid)
    (hz : s.zonalStat ≠ .none) : (reduceGrid s g).length = 1 := by
  unfold reduceGrid
  cases hzs : s.zonalStat
  · exact absurd hzs hz
  all_goals rfl

theorem reduceGrid_of_none (s : Settings) (g : FeatureGrid)
    (hz : s.zonalStat = .none) : reduceGrid s g = g.pixels.map (pixelRow g.bands) := by
  unfold reduceGrid
  rw [hz]

theorem mem_reduceGrid_length (s : Settings) (g : FeatureGrid) (row : List Val)
    (h : row ∈ reduceGrid s g) : row.length = g.bands.length := by
  unfold reduceGrid at h
  cases hzs : s.zonalStat <;> rw [hzs] at h
  · rcases List.mem_map.1 h with ⟨p, _, hp⟩
    rw [← hp]
    simp [pixelRow]
  all_goals
    simp only [List.mem_singleton] at h
    rw [h]
    simp

end GeometrySampler

namespace GeometrySampler

theorem assembleRun_ok_inv (s : Settings) (l : List GeomOutcome) (r : ExtractionResult)
    (h : assembleRun s l = .ok r) :
    l.any GeomOutcome.isFatal = false ∧
    allEqHead (l.filterMap GeomOutcome.bandsOf) = true ∧
    r.bands = (l.filterMap GeomOutcome.bandsOf).headD [] ∧
    r.columnNames = "label" :: (r.bands ++
      (if s.returnCoords then ["x_coord", "y_coord"] else [])) ∧
    r.records = (l.map GeomOutcome.recsOf).flatten ∧
    r.dropped = l.countP GeomOutcome.isDropped := by
  unfold assembleRun at h
  split at h
  · cases h
  · rename_i hfat
    split at h
    · rename_i heq
      injection h with h1
      subst h1
      exact ⟨by simpa using hfat, heq, rfl, rfl, rfl, rfl⟩
    · cases h

theorem extractCore_ok_inv (s : Settings) (geoms : List (Option Int)) (ff : FeatureFunc)
    (sched : List Nat) (r : ExtractionResult) (h : extractCore s geoms ff sched = .ok r) :
    configBad s geoms = false ∧
    assembleRun s (collectOutcomes sched (outcomeAt s geoms ff) geoms.length) = .ok r := by
  unfold extractCore at h
  split at h
  · cases h
  · rename_i hcfg
    exact ⟨by simpa using hcfg, h⟩

theorem records_dropped_count (l : List GeomOutcome)
    (hfat : ∀ o ∈ l, o.isFatal = false)
    (hone : ∀ b rs, GeomOutcome.ok b rs ∈ l → rs.length = 1) :
    ((l.map GeomOutcome.recsOf).flatten).length + l.countP GeomOutcome.isDropped
      = l.length := by
  induction l with
  | nil => simp
  | cons o t ih =>
    have ihx := ih (fun x hx => hfat x (List.mem_cons_of_mem o hx))
      (fun b rs hx => hone b rs (List.mem_cons_of_mem o hx))
    cases o with
    | dropped =>
      rw [List.map_cons, List.flatten_cons,
        show GeomOutcome.recsOf .dropped = [] from rfl, List.nil_append,
        List.countP_cons, show GeomOutcome.isDropped .dropped = true from rfl]
      simp only [List.length_cons, if_pos]
      omega
    | fatal =>
      have := hfat .fatal (List.mem_cons_self _ _)
      simp [GeomOutcome.isFatal] at this
    | ok b rs =>
      have hrs := hone b rs (List.mem_cons_self _ _)
      rw [List.map_cons, List.flatten_cons, List.length_append,
        show GeomOutcome.recsOf (.ok b rs) = rs from rfl, hrs,
        List.countP_cons, show GeomOutcome.isDropped (.ok b rs) = false from rfl]
      simp only [List.length_cons, Bool.false_eq_true, if_false]
      omega

theorem processGeometry_ok_length (s : Settings) (lbl : Int) (ff : FeatureFunc) (i : Nat)
    (b : List String) (rs : List SampleRecord)
    (h : processGeometry s lbl ff i = .ok b rs) (hz : s.zonalStat ≠ .none) :
    rs.length = 1 := by
  rcases processGeometry_ok_inv s lbl ff i b rs h with ⟨g, _, _, _, hr⟩
  rw [hr, mkRecords, List.length_map, reduceGrid_length_of_stat s g hz]

end GeometrySampler

namespace GeometrySampler

/-- C1: For every valid input with `zonal_stat != none`, a run that returns
a result at all returns a complete one: the number of returned records plus
the reported dropped-geometry count equals the number of input geometries,
so the caller never receives a partially formed matrix without a run-level
failure. -/
theorem C1_complete_matrix (c : Config) (geoms : List (Option Int))
    (ff : FeatureFunc) (sched : List Nat) (r : ExtractionResult)
    (hz : c.settings.zonalStat ≠ .none)
    (hok : extract c geoms ff sched = .ok r) :
    r.records.length + r.dropped = geoms.length := by
  unfold extract at hok
  rcases extractCore_ok_inv _ _ _ _ _ hok with ⟨-, hass⟩
  rcases assembleRun_ok_inv _ _ _ hass with ⟨hfat, -, -, -, hrec, hdrop⟩
  have hfat' : ∀ o ∈ collectOutcomes
      (if c.ncpus = 1 then List.range geoms.length else sched)
      (outcomeAt c.settings geoms ff) geoms.length, o.isFatal = false := by
    intro o ho
    exact Bool.eq_false_iff.mpr (List.any_eq_false.1 hfat o ho)
  have hone : ∀ b rs, GeomOutcome.ok b rs ∈ collectOutcomes
      (if c.ncpus = 1 then List.range geoms.length else sched)
      (outcomeAt c.settings geoms ff) geoms.length → rs.length = 1 := by
    intro b rs hmem
    rcases mem_collectOutcomes _ _ _ _ hmem with h | ⟨i, hi, hoi⟩
    · exact GeomOutcome.noConfusion h
    · exact processGeometry_ok_length _ _ _ _ _ _ hoi.symm hz
  have hcount := records_dropped_count _ hfat' hone
  rw [hrec, hdrop, hcount, length_collectOutcomes]

/-- Closed instance of `C1_complete_matrix`: two geometries, zonal mean,
both succeed, so 2 records + 0 dropped = 2 geometries. -/
theorem C1_complete_matrix_witness :
    (sampleSettings.zonalStat ≠ .none ∧
      extract ⟨sampleSettings, 1⟩ [some 10, some 20] sampleFF [] = .ok sampleResultTwo) ∧
    sampleResultTwo.records.length + sampleResultTwo.dropped = 2 := by
  refine ⟨⟨by decide, by decide⟩, ?_⟩
  exact C1_complete_matrix ⟨sampleSettings, 1⟩ [some 10, some 20] sampleFF []
    sampleResultTwo (by decide) (by decide)

end GeometrySampler

namespace GeometrySampler

theorem ok_mem_bands (l : List GeomOutcome) (b : List String) (rs : List SampleRecord)
    (h : GeomOutcome.ok b rs ∈ l)
    (hall : allEqHead (l.filterMap GeomOutcome.bandsOf) = true) :
    b = (l.filterMap GeomOutcome.bandsOf).headD [] := by
  apply allEqHead_mem _ hall
  exact List.mem_filterMap.2 ⟨GeomOutcome.ok b rs, h, rfl⟩

theorem mem_records_inv (l : List GeomOutcome) (rec : SampleRecord)
    (hrec : rec ∈ (l.map GeomOutcome.recsOf).flatten) :
    ∃ b rs, GeomOutcome.ok b rs ∈ l ∧ rec ∈ rs := by
  rcases List.mem_flatten.1 hrec with ⟨rs0, hrs0, hmem⟩
  rcases List.mem_map.1 hrs0 with ⟨o, ho, hrecs⟩
  cases o with
  | dropped => rw [← hrecs] at hmem; cases hmem
  | fatal => rw [← hrecs] at hmem; cases hmem
  | ok b rs =>
    refine ⟨b, rs, ho, ?_⟩
    rwa [← hrecs] at hmem

/-- C2: In every successful run the column manifest is `label`, then the
band names, then (exactly when coordinates were requested) `x_coord` and
`y_coord`; its length is `1 + number_of_bands + (2 if return_coords else 0)`,
and every record has a feature vector of the manifest's band count and a
coordinate field present exactly when requested, so field order and vector
length agree across all records of the run. -/
theorem C2_manifest_shape (c : Config) (geoms : List (Option Int))
    (ff : FeatureFunc) (sched : List Nat) (r : ExtractionResult)
    (hok : extract c geoms ff sched = .ok r) :
    r.columnNames = "label" :: (r.bands ++
      (if c.settings.returnCoords then ["x_coord", "y_coord"] else [])) ∧
    r.columnNames.length = 1 + r.bands.length +
      (if c.settings.returnCoords then 2 else 0) ∧
    ∀ rec ∈ r.records, rec.features.length = r.bands.length ∧
      rec.coords.isSome = c.settings.returnCoords := by
  unfold extract at hok
  rcases extractCore_ok_inv _ _ _ _ _ hok with ⟨-, hass⟩
  rcases assembleRun_ok_inv _ _ _ hass with ⟨-, hall, hbands, hcols, hrecs, -⟩
  refine ⟨hcols, ?_, ?_⟩
  · rw [hcols]
    cases hrc : c.settings.returnCoords <;> simp <;> omega
  · intro rec hmem
    rw [hrecs] at hmem
    rcases mem_records_inv _ _ hmem with ⟨b, rs, hbrs, hin⟩
    have hb : b = r.bands := by
      rw [hbands]
      exact ok_mem_bands _ _ _ hbrs hall
    rcases mem_collectOutcomes _ _ _ _ hbrs with hd | ⟨i, -, hoi⟩
    · exact GeomOutcome.noConfusion hd
    · rcases processGeometry_ok_inv _ _ _ _ _ _ hoi.symm with ⟨g, -, -, hbg, hrsg⟩
      rw [hrsg] at hin
      rcases mem_mkRecords _ _ _ _ _ hin with ⟨row, hrow, hreceq⟩
      have hlen : row.length = g.bands.length := mem_reduceGrid_length _ _ _ hrow
      constructor
      · rw [hreceq]
        show row.length = r.bands.length
        rw [hlen, ← hbg, hb]
      · rw [hreceq]
        show (if c.settings.returnCoords then some g.centroid else none).isSome
          = c.settings.returnCoords
        cases hrc : c.settings.returnCoords <;> simp

/-- Closed instance of `C2_manifest_shape` on a concrete two-geometry run
with coordinates requested. -/
theorem C2_manifest_shape_witness :
    extract ⟨sampleSettings, 1⟩ [some 10, some 20] sampleFF [] = .ok sampleResultTwo ∧
    sampleResultTwo.columnNames = "label" :: (sampleResultTwo.bands ++
      (if sampleSettings.returnCoords then ["x_coord", "y_coord"] else [])) ∧
    sampleResultTwo.columnNames.length = 1 + sampleResultTwo.bands.length +
      (if sampleSettings.returnCoords then 2 else 0) ∧
    ∀ rec ∈ sampleResultTwo.records,
      rec.features.length = sampleResultTwo.bands.length ∧
      rec.coords.isSome = sampleSettings.returnCoords := by
  refine ⟨by decide, ?_⟩
  exact C2_manifest_shape ⟨sampleSettings, 1⟩ [some 10, some 20] sampleFF []
    sampleResultTwo (by decide)

/-- C3: For every geometry collection and feature function, running with any
`ncpus` and any worker completion order (a permutation of the geometry
indices) yields exactly the result of the fully sequential `ncpus = 1` run:
the assembled output is ordered by input geometry position, not by worker
completion order. -/
theorem C3_order_determinism (s : Settings) (m : Nat) (geoms : List (Option Int))
    (ff : FeatureFunc) (sched : List Nat)
    (hperm : sched.Perm (List.range geoms.length)) :
    extract ⟨s, m⟩ geoms ff sched = extract ⟨s, 1⟩ geoms ff sched := by
  unfold extract
  dsimp only
  rw [if_pos rfl]
  by_cases hm : m = 1
  · rw [if_pos hm]
  · rw [if_neg hm]
    unfold extractCore
    rw [collectOutcomes_perm _ _ _ hperm,
      collectOutcomes_perm _ _ _ (List.Perm.refl _)]

/-- Closed instance of `C3_order_determinism`: a four-worker run whose
completion order is reversed coincides with the sequential run. -/
theorem C3_order_determinism_witness :
    ([1, 0] : List Nat).Perm (List.range 2) ∧
    extract ⟨sampleSettings, 4⟩ [some 10, some 20] sampleFF [1, 0] =
      extract ⟨sampleSettings, 1⟩ [some 10, some 20] sampleFF [1, 0] := by
  refine ⟨by decide, ?_⟩
  exact C3_order_determinism sampleSettings 4 [some 10, some 20] sampleFF [1, 0]
    (by decide)

end GeometrySampler

namespace GeometrySampler

/-- C8: Every invalid caller configuration — an empty geometry collection,
a label not representable as an integer, or spatial extent fields present
in the shared query — makes `extract` fail immediately with a
ConfigurationError, for every feature function alike: no per-geometry
extraction work influences the outcome and no partial output is produced. -/
theorem C8_configuration_error (c : Config) (geoms : List (Option Int))
    (sched : List Nat)
    (hbad : geoms = [] ∨ (∃ l ∈ geoms, l = none) ∨
      c.settings.query.hasSpatialFields = true) :
    ∀ ff : FeatureFunc, extract c geoms ff sched = .error .configurationError := by
  intro ff
  have hcfg : configBad c.settings geoms = true := by
    unfold configBad
    rcases hbad with h | ⟨l, hl, hln⟩ | h
    · subst h; simp
    · subst hln
      simp only [Bool.or_eq_true, List.any_eq_true]
      exact Or.inl (Or.inr ⟨none, hl, rfl⟩)
    · simp [h]
  unfold extract extractCore
  rw [if_pos hcfg]

/-- Closed instance of `C8_configuration_error`: a geometry with a missing
integer label fails the run before any extraction. -/
theorem C8_configuration_error_witness :
    ([some 10, none, some 30] = ([] : List (Option Int)) ∨
      (∃ l ∈ [some 10, none, some 30], l = (none : Option Int)) ∨
      sampleSettings.query.hasSpatialFields = true) ∧
    extract ⟨sampleSettings, 1⟩ [some 10, none, some 30] sampleFF [] =
      .error .configurationError := by
  have hbad : [some 10, none, some 30] = ([] : List (Option Int)) ∨
      (∃ l ∈ [some 10, none, some 30], l = (none : Option Int)) ∨
      sampleSettings.query.hasSpatialFields = true :=
    Or.inr (Or.inl ⟨none, by decide, rfl⟩)
  exact ⟨hbad,
    C8_configuration_error ⟨sampleSettings, 1⟩ [some 10, none, some 30] [] hbad sampleFF⟩

/-- C7: When the feature function violates its structural contract — some
geometry's outcome is a fatal time-dimension violation, or two successful
geometries carry different band sets — a configuration-valid run fails as a
whole with a ContractViolation; since the run returns `Except.error`, no
partial ExtractionResult reaches the caller. -/
theorem C7_contract_violation (s : Settings) (geoms : List (Option Int))
    (ff : FeatureFunc) (sched : List Nat)
    (hne : geoms ≠ []) (hlab : ∀ l ∈ geoms, l ≠ none)
    (hq : s.query.hasSpatialFields = false)
    (hbad : (∃ i < geoms.length, outcomeAt s geoms ff i = .fatal) ∨
      (∃ i < geoms.length, ∃ j < geoms.length, ∃ b₁ rs₁ b₂ rs₂,
        outcomeAt s geoms ff i = .ok b₁ rs₁ ∧ outcomeAt s geoms ff j = .ok b₂ rs₂ ∧
        b₁ ≠ b₂)) :
    extract ⟨s, 1⟩ geoms ff sched = .error .contractViolation := by
  have hcfg : configBad s geoms = false := by
    unfold configBad
    simp only [Bool.or_eq_false_iff]
    refine ⟨⟨?_, ?_⟩, ?_⟩
    · simpa [List.isEmpty_iff] using hne
    · rw [List.any_eq_false]
      intro x hx
      have := hlab x hx
      cases x with
      | none => exact absurd rfl this
      | some v => simp
    · exact hq
  unfold extract extractCore
  dsimp only
  rw [if_neg (by simp [hcfg]), if_pos rfl,
    collectOutcomes_perm _ _ _ (List.Perm.refl _)]
  unfold assembleRun
  cases hfat : ((List.range geoms.length).map (outcomeAt s geoms ff)).any
      GeomOutcome.isFatal with
  | true => rw [if_pos rfl]
  | false =>
    rw [if_neg Bool.false_ne_true]
    have hnotall : allEqHead (((List.range geoms.length).map
        (outcomeAt s geoms ff)).filterMap GeomOutcome.bandsOf) = false := by
      rcases hbad with ⟨i, hi, hf⟩ | ⟨i, hi, j, hj, b₁, rs₁, b₂, rs₂, h₁, h₂, hneq⟩
      · exfalso
        have : GeomOutcome.isFatal (outcomeAt s geoms ff i) = true := by
          rw [hf]; rfl
        have hmem : outcomeAt s geoms ff i ∈
            (List.range geoms.length).map (outcomeAt s geoms ff) :=
          List.mem_map.2 ⟨i, List.mem_range.2 hi, rfl⟩
        have := List.any_eq_false.1 hfat _ hmem
        simp_all
      · apply allEqHead_false_of_ne _ b₁ b₂ _ _ hneq
        · exact List.mem_filterMap.2 ⟨outcomeAt s geoms ff i,
            List.mem_map.2 ⟨i, List.mem_range.2 hi, rfl⟩, by rw [h₁]; rfl⟩
        · exact List.mem_filterMap.2 ⟨outcomeAt s geoms ff j,
            List.mem_map.2 ⟨j, List.mem_range.2 hj, rfl⟩, by rw [h₂]; rfl⟩
    rw [if_neg fun h => Bool.false_ne_true (hnotall ▸ h)]

/-- Closed instance of `C7_contract_violation`: geometry 0 reports band set
`[a, b]` and geometry 1 reports `[a, c]`; the run fails with a
ContractViolation. -/
theorem C7_contract_violation_witness :
    (([some 10, some 20] : List (Option Int)) ≠ [] ∧
      (∀ l ∈ ([some 10, some 20] : List (Option Int)), l ≠ none) ∧
      sampleSettings.query.hasSpatialFields = false ∧
      outcomeAt sampleSettings [some 10, some 20] mismatchFF 0 =
        .ok ["a", "b"] [sampleRecordOf 10] ∧
      outcomeAt sampleSettings [some 10, some 20] mismatchFF 1 =
        .ok ["a", "c"] [sampleRecordOf 20] ∧
      (["a", "b"] : List String) ≠ ["a", "c"]) ∧
    extract ⟨sampleSettings, 1⟩ [some 10, some 20] mismatchFF [] =
      .error .contractViolation := by
  refine ⟨⟨by decide, by decide, by decide, by decide, by decide, by decide⟩, ?_⟩
  exact C7_contract_violation sampleSettings [some 10, some 20] mismatchFF []
    (by decide) (by decide) (by decide)
    (Or.inr ⟨0, by decide, 1, by decide, ["a", "b"], [sampleRecordOf 10],
      ["a", "c"], [sampleRecordOf 20], by decide, by decide, by decide⟩)

end GeometrySampler

namespace GeometrySampler

theorem tooManyInvalid_false_of_below (s : Settings) (rows : List (List Val))
    (h : (invalidCount rows : Int) * s.nullThreshold.den <
      s.nullThreshold.num * (totalCount rows : Int)) :
    tooManyInvalid s rows = false := by
  unfold tooManyInvalid
  simp only [gt_iff_lt, decide_eq_false_iff_not, not_lt]
  exact le_of_lt h

theorem tooManyInvalid_true_of_all (s : Settings) (rows : List (List Val))
    (hthr : s.nullThreshold.num < s.nullThreshold.den)
    (heq : invalidCount rows = totalCount rows) (hpos : 0 < totalCount rows) :
    tooManyInvalid s rows = true := by
  unfold tooManyInvalid
  simp only [gt_iff_lt, decide_eq_true_eq]
  rw [heq]
  have hp : (0 : Int) < (totalCount rows : Int) := by exact_mod_cast hpos
  calc s.nullThreshold.num * (totalCount rows : Int)
      < s.nullThreshold.den * (totalCount rows : Int) :=
        mul_lt_mul_of_pos_right hthr hp
    _ = (totalCount rows : Int) * s.nullThreshold.den := mul_comm _ _

theorem processGeometry_first_success (s : Settings) (lbl : Int) (ff : FeatureFunc)
    (i k : Nat) (g : FeatureGrid) (hk : k ≤ s.retries)
    (hfail : ∀ a < k, attemptStep s lbl ff i a = .retry)
    (hg : ff i k = .grid g) (ht : g.hasTimeDim = false)
    (hfrac : tooManyInvalid s (reduceGrid s g) = false) :
    processGeometry s lbl ff i = .ok g.bands (mkRecords s lbl g (reduceGrid s g)) := by
  unfold processGeometry
  refine runAttempts_first_success s lbl ff i _ _ (s.retries + 1) 0 k
    (Nat.lt_succ_of_le hk) ?_ ?_
  · intro m hm
    rw [Nat.zero_add]
    exact hfail m hm
  · rw [Nat.zero_add]
    exact attemptStep_success s lbl ff i k g hg ht hfrac

theorem ok_recs_mem_run_records (s : Settings) (geoms : List (Option Int))
    (ff : FeatureFunc) (i : Nat) (b : List String) (rs : List SampleRecord)
    (r : ExtractionResult) (hi : i < geoms.length)
    (hout : outcomeAt s geoms ff i = .ok b rs)
    (hok : extractCore s geoms ff (List.range geoms.length) = .ok r) :
    ∀ rec ∈ rs, rec ∈ r.records := by
  intro rec hrec
  rcases extractCore_ok_inv _ _ _ _ _ hok with ⟨-, hass⟩
  rcases assembleRun_ok_inv _ _ _ hass with ⟨-, -, -, -, hrecs, -⟩
  rw [hrecs, collectOutcomes_perm _ _ _ (List.Perm.refl _)]
  apply List.mem_flatten.2
  refine ⟨rs, ?_, hrec⟩
  rw [List.map_map]
  refine List.mem_map.2 ⟨i, List.mem_range.2 hi, ?_⟩
  show GeomOutcome.recsOf (outcomeAt s geoms ff i) = rs
  rw [hout]
  rfl

/-- C4: A geometry whose extracted grid, after the zonal reduction, has an
invalid-value fraction strictly below `null_threshold` succeeds on its first
attempt with exactly the reduced rows as feature vectors — invalid values
still present, nothing imputed or removed — and, in a successful run, all
its records appear in the output. -/
theorem C4_below_threshold_retained (s : Settings) (geoms : List (Option Int))
    (ff : FeatureFunc) (sched : List Nat) (i : Nat) (g : FeatureGrid)
    (hi : i < geoms.length)
    (hg : ff i 0 = .grid g) (ht : g.hasTimeDim = false)
    (hfrac : (invalidCount (reduceGrid s g) : Int) * s.nullThreshold.den <
      s.nullThreshold.num * (totalCount (reduceGrid s g) : Int)) :
    processGeometry s (labelAt geoms i) ff i =
      .ok g.bands (mkRecords s (labelAt geoms i) g (reduceGrid s g)) ∧
    ∀ r, extract ⟨s, 1⟩ geoms ff sched = .ok r →
      ∀ rec ∈ mkRecords s (labelAt geoms i) g (reduceGrid s g), rec ∈ r.records := by
  have hm := tooManyInvalid_false_of_below s (reduceGrid s g) hfrac
  have hout := processGeometry_first_success s (labelAt geoms i) ff i 0 g
    (Nat.zero_le _) (fun a ha => absurd ha (Nat.not_lt_zero a)) hg ht hm
  refine ⟨hout, ?_⟩
  intro r hok
  have hok' : extractCore s geoms ff (List.range geoms.length) = .ok r := hok
  exact ok_recs_mem_run_records s geoms ff i _ _ r hi hout hok'

/-- Closed instance of `C4_below_threshold_retained`: a reduced grid with
one invalid of two values under threshold 3/4 is retained, invalid value
included. -/
theorem C4_below_threshold_retained_witness :
    ((0 : Nat) < [some (10 : Int)].length ∧
      halfInvalidFF 0 0 = .grid halfInvalidGrid ∧
      halfInvalidGrid.hasTimeDim = false ∧
      (invalidCount (reduceGrid { sampleSettings with
          nullThreshold := { num := 3, den := 4 } } halfInvalidGrid) : Int) *
        (3 : Int) < (3 : Int) *
        (totalCount (reduceGrid { sampleSettings with
          nullThreshold := { num := 3, den := 4 } } halfInvalidGrid) : Int)) ∧
    processGeometry { sampleSettings with nullThreshold := { num := 3, den := 4 } }
      (labelAt [some 10] 0) halfInvalidFF 0 =
      .ok halfInvalidGrid.bands
        (mkRecords { sampleSettings with nullThreshold := { num := 3, den := 4 } }
          (labelAt [some 10] 0) halfInvalidGrid
          (reduceGrid { sampleSettings with nullThreshold := { num := 3, den := 4 } }
            halfInvalidGrid)) := by
  refine ⟨⟨by decide, by decide, by decide, by decide⟩, ?_⟩
  exact (C4_below_threshold_retained
    { sampleSettings with nullThreshold := { num := 3, den := 4 } }
    [some 10] halfInvalidFF [] 0 halfInvalidGrid (by decide) (by decide) (by decide)
    (by decide)).1

end GeometrySampler

namespace GeometrySampler

/-- C5: A geometry whose reduced grid is 100% invalid on every attempt (with
a meaningful threshold below 1) fails every attempt, is dropped only after
the bounded retries are exhausted, never contributes a record, and makes the
run's dropped count positive; conversely a dropped geometry had every one of
its attempts fail recoverably. -/
theorem C5_all_invalid_dropped (s : Settings) (geoms : List (Option Int))
    (ff : FeatureFunc) (sched : List Nat) (i : Nat)
    (hi : i < geoms.length)
    (hthr : s.nullThreshold.num < s.nullThreshold.den)
    (hall : ∀ a, a ≤ s.retries → ∃ g, ff i a = .grid g ∧ g.hasTimeDim = false ∧
      invalidCount (reduceGrid s g) = totalCount (reduceGrid s g) ∧
      0 < totalCount (reduceGrid s g)) :
    processGeometry s (labelAt geoms i) ff i = .dropped ∧
    (∀ r, extract ⟨s, 1⟩ geoms ff sched = .ok r → 1 ≤ r.dropped) ∧
    (∀ a k, runAttempts s (labelAt geoms i) ff i a k = .dropped →
      ∀ m, m < k → attemptRetryable s ff i (a + m)) := by
  have hdrop : processGeometry s (labelAt geoms i) ff i = .dropped := by
    unfold processGeometry
    rw [runAttempts_dropped_iff]
    intro k hk
    rcases hall k (Nat.lt_succ_iff.1 hk) with ⟨g, hg, ht, heq, hpos⟩
    rw [Nat.zero_add]
    exact (attemptStep_retry_iff s (labelAt geoms i) ff i k).2
      (Or.inr ⟨g, hg, ht, tooManyInvalid_true_of_all s _ hthr heq hpos⟩)
  refine ⟨hdrop, ?_, ?_⟩
  · intro r hok
    have hok' : extractCore s geoms ff (List.range geoms.length) = .ok r := hok
    rcases extractCore_ok_inv _ _ _ _ _ hok' with ⟨-, hass⟩
    rcases assembleRun_ok_inv _ _ _ hass with ⟨-, -, -, -, -, hdr⟩
    rw [hdr, collectOutcomes_perm _ _ _ (List.Perm.refl _)]
    refine Nat.succ_le_of_lt (List.countP_pos_iff.2 ⟨outcomeAt s geoms ff i, ?_, ?_⟩)
    · exact List.mem_map.2 ⟨i, List.mem_range.2 hi, rfl⟩
    · show GeomOutcome.isDropped (outcomeAt s geoms ff i) = true
      rw [show outcomeAt s geoms ff i = processGeometry s (labelAt geoms i) ff i from rfl,
        hdrop]
      rfl
  · intro a k h m hm
    exact (attemptStep_retry_iff s (labelAt geoms i) ff i (a + m)).1
      ((runAttempts_dropped_iff s (labelAt geoms i) ff i k a).1 h m hm)

/-- Closed instance of `C5_all_invalid_dropped`: two geometries whose grids
are all-invalid on every attempt are both dropped; the run reports
`dropped = 2` and no records. -/
theorem C5_all_invalid_dropped_witness :
    ((0 : Nat) < ([some 10, some 20] : List (Option Int)).length ∧
      sampleSettings.nullThreshold.num < sampleSettings.nullThreshold.den) ∧
    processGeometry sampleSettings (labelAt [some 10, some 20] 0) allInvalidFF 0 =
      .dropped ∧
    (extract ⟨sampleSettings, 1⟩ [some 10, some 20] allInvalidFF [] =
      .ok allDroppedResult ∧ 1 ≤ allDroppedResult.dropped) := by
  have hall : ∀ a, a ≤ sampleSettings.retries → ∃ g, allInvalidFF 0 a = .grid g ∧
      g.hasTimeDim = false ∧
      invalidCount (reduceGrid sampleSettings g) =
        totalCount (reduceGrid sampleSettings g) ∧
      0 < totalCount (reduceGrid sampleSettings g) :=
    fun a _ => ⟨allInvalidGrid, rfl, rfl, by decide, by decide⟩
  have h := C5_all_invalid_dropped sampleSettings [some 10, some 20] allInvalidFF []
    0 (by decide) (by decide) hall
  exact ⟨⟨by decide, by decide⟩, h.1, by decide, h.2.1 allDroppedResult (by decide)⟩

/-- C6: Per-geometry read failures never propagate: a geometry whose feature
function read-errors on every attempt before `k ≤ retries` and succeeds at
attempt `k` is processed successfully with exactly its records — so it
appears once and is not dropped — and a run in which no geometry's outcome
is dropped reports a dropped count of zero. -/
theorem C6_read_failures_recovered (s : Settings) (geoms : List (Option Int))
    (ff : FeatureFunc) (sched : List Nat) (i k : Nat) (g : FeatureGrid)
    (hk : k ≤ s.retries)
    (hfail : ∀ a, a < k → ff i a = .readError)
    (hg : ff i k = .grid g) (ht : g.hasTimeDim = false)
    (hfrac : tooManyInvalid s (reduceGrid s g) = false) :
    processGeometry s (labelAt geoms i) ff i =
      .ok g.bands (mkRecords s (labelAt geoms i) g (reduceGrid s g)) ∧
    ∀ r, extract ⟨s, 1⟩ geoms ff sched = .ok r →
      (∀ j, j < geoms.length → outcomeAt s geoms ff j ≠ .dropped) →
      r.dropped = 0 := by
  have hout := processGeometry_first_success s (labelAt geoms i) ff i k g hk
    (fun a ha => (attemptStep_retry_iff s (labelAt geoms i) ff i a).2
      (Or.inl (hfail a ha)))
    hg ht hfrac
  refine ⟨hout, ?_⟩
  intro r hok hnd
  have hok' : extractCore s geoms ff (List.range geoms.length) = .ok r := hok
  rcases extractCore_ok_inv _ _ _ _ _ hok' with ⟨-, hass⟩
  rcases assembleRun_ok_inv _ _ _ hass with ⟨-, -, -, -, -, hdr⟩
  rw [hdr, collectOutcomes_perm _ _ _ (List.Perm.refl _)]
  rw [List.countP_eq_zero]
  intro o ho
  rcases List.mem_map.1 ho with ⟨j, hj, rfl⟩
  have hne := hnd j (List.mem_range.1 hj)
  intro hcontra
  apply hne
  cases ho' : outcomeAt s geoms ff j with
  | dropped => rfl
  | fatal =>
    rw [ho'] at hcontra
    cases hcontra
  | ok b rs =>
    rw [ho'] at hcontra
    cases hcontra

/-- Closed instance of `C6_read_failures_recovered`: the spec scenario —
three geometries, geometry 1 read-errors twice and succeeds on the third
attempt with `retries = 3`; it appears exactly once and the run reports
`dropped = 0`. -/
theorem C6_read_failures_recovered_witness :
    ((2 : Nat) ≤ sampleSettings.retries ∧
      (∀ a, a < 2 → retryFF 1 a = .readError) ∧
      retryFF 1 2 = .grid sampleGrid ∧
      sampleGrid.hasTimeDim = false ∧
      tooManyInvalid sampleSettings (reduceGrid sampleSettings sampleGrid) = false) ∧
    processGeometry sampleSettings (labelAt [some 10, some 20, some 30] 1) retryFF 1 =
      .ok sampleGrid.bands
        (mkRecords sampleSettings (labelAt [some 10, some 20, some 30] 1) sampleGrid
          (reduceGrid sampleSettings sampleGrid)) ∧
    (extract ⟨sampleSettings, 1⟩ [some 10, some 20, some 30] retryFF [] =
      .ok retryResultThree ∧ retryResultThree.dropped = 0) := by
  have h := C6_read_failures_recovered sampleSettings [some 10, some 20, some 30]
    retryFF [] 1 2 sampleGrid (by decide) (by decide) (by decide)
    (by decide) (by decide)
  refine ⟨⟨by decide, by decide, by decide, by decide, by decide⟩, h.1,
    by decide, ?_⟩
  exact h.2 retryResultThree (by decide) (by decide)

/-- C9: A geometry that succeeds on its first attempt with grid `g` yields
one sample record per pixel of `g` when `zonal_stat` is `none`, and exactly
one record (the spatial reduction) for any other `zonal_stat`. -/
theorem C9_record_multiplicity (s : Settings) (lbl : Int) (ff : FeatureFunc)
    (i : Nat) (g : FeatureGrid)
    (hg : ff i 0 = .grid g) (ht : g.hasTimeDim = false)
    (hfrac : tooManyInvalid s (reduceGrid s g) = false) :
    processGeometry s lbl ff i = .ok g.bands (mkRecords s lbl g (reduceGrid s g)) ∧
    (s.zonalStat = .none →
      (mkRecords s lbl g (reduceGrid s g)).length = g.pixels.length) ∧
    (s.zonalStat ≠ .none → (mkRecords s lbl g (reduceGrid s g)).length = 1) := by
  refine ⟨processGeometry_first_success s lbl ff i 0 g (Nat.zero_le _)
    (fun a ha => absurd ha (Nat.not_lt_zero a)) hg ht hfrac, ?_, ?_⟩
  · intro hz
    rw [length_mkRecords, reduceGrid_of_none s g hz, List.length_map]
  · intro hz
    rw [length_mkRecords, reduceGrid_length_of_stat s g hz]

/-- Closed instance of `C9_record_multiplicity`: with `zonal_stat = none` a
two-pixel grid yields two per-pixel records for the same geometry. -/
theorem C9_record_multiplicity_witness :
    (twoPixelFF 0 0 = .grid twoPixelGrid ∧
      twoPixelGrid.hasTimeDim = false ∧
      tooManyInvalid { sampleSettings with zonalStat := .none }
        (reduceGrid { sampleSettings with zonalStat := .none } twoPixelGrid) = false ∧
      { sampleSettings with zonalStat := .none }.zonalStat = .none) ∧
    processGeometry { sampleSettings with zonalStat := .none } 10 twoPixelFF 0 =
      .ok twoPixelGrid.bands
        (mkRecords { sampleSettings with zonalStat := .none } 10 twoPixelGrid
          (reduceGrid { sampleSettings with zonalStat := .none } twoPixelGrid)) ∧
    (mkRecords { sampleSettings with zonalStat := .none } 10 twoPixelGrid
      (reduceGrid { sampleSettings with zonalStat := .none } twoPixelGrid)).length
      = twoPixelGrid.pixels.length := by
  have h := C9_record_multiplicity { sampleSettings with zonalStat := .none } 10
    twoPixelFF 0 twoPixelGrid (by decide) (by decide) (by decide)
  exact ⟨⟨by decide, by decide, by decide, by decide⟩, h.1, h.2.1 (by decide)⟩

end GeometrySampler

namespace TrainingNotebook

theorem pyIndex_getElem (l : List String) (hnd : l.Nodup) :
    ∀ (i : Nat) (h : i < l.length), pyIndex l (l.get ⟨i, h⟩) = i := by
  induction l with
  | nil => intro i h; exact absurd h (Nat.not_lt_zero i)
  | cons a t ih =>
    intro i h
    rw [List.nodup_cons] at hnd
    cases i with
    | zero =>
      unfold pyIndex
      rw [List.findIdx_cons]
      simp
    | succ n =>
      have hn : n < t.length := Nat.lt_of_succ_lt_succ h
      have hne : a ≠ t.get ⟨n, hn⟩ := by
        intro hEq
        exact hnd.1 (hEq ▸ List.get_mem t n hn)
      unfold pyIndex
      rw [List.findIdx_cons]
      have hgi : (a :: t).get ⟨n + 1, h⟩ = t.get ⟨n, hn⟩ := rfl
      rw [hgi, show (decide (a = t.get ⟨n, hn⟩)) = false from decide_eq_false hne]
      show t.findIdx (fun x => decide (x = t.get ⟨n, hn⟩)) + 1 = n + 1
      have := ih hnd.2 n hn
      unfold pyIndex at this
      rw [this]

theorem range_map_getD_eq_take {A : Type} (d : A) (row : List A) (n : Nat)
    (hn : n ≤ row.length) :
    (List.range n).map (fun j => row.getD j d) = row.take n := by
  apply List.ext_getElem
  · simp [Nat.min_eq_left hn]
  · intro i h1 h2
    have hi : i < row.length := by
      rw [List.length_map, List.length_range] at h1
      exact Nat.lt_of_lt_of_le h1 hn
    simp only [List.getElem_map, List.getElem_range, List.getElem_take]
    rw [List.getD_eq_getElem row d hi]

/-- C10: In the notebook's export step, for a duplicate-free column manifest
ending in `x_coord`, `y_coord`, the index list
`[column_names.index(v) for v in column_names[0:-2]]` is `[0, ..., n-3]`,
the header `column_names[0:-2]` is the manifest minus the two coordinate
names, and the exported matrix `model_input[:, model_col_indices]` is
exactly the input matrix with its last two columns removed, so header names
and data columns line up in original order. -/
theorem C10_export_column_alignment (cn : List String) (base : List String)
    (hnd : cn.Nodup) (hend : cn = base ++ ["x_coord", "y_coord"]) :
    model_col_indices cn = List.range (cn.length - 2) ∧
    cn.take (cn.length - 2) = base ∧
    ∀ (A : Type) (d : A) (m : List (List A)),
      (∀ row ∈ m, row.length = cn.length) →
      selectCols d m (model_col_indices cn) = dropLastTwoCols m := by
  have hidx : model_col_indices cn = List.range (cn.length - 2) := by
    unfold model_col_indices
    apply List.ext_getElem
    · simp [Nat.min_eq_left (Nat.sub_le _ _)]
    · intro i h1 h2
      have hi2 : i < cn.length - 2 := by
        rw [List.length_map, List.length_take,
          Nat.min_eq_left (Nat.sub_le _ _)] at h1
        exact h1
      have hi : i < cn.length := Nat.lt_of_lt_of_le hi2 (Nat.sub_le _ _)
      simp only [List.getElem_map, List.getElem_range, List.getElem_take]
      exact pyIndex_getElem cn hnd i hi
  refine ⟨hidx, ?_, ?_⟩
  · rw [hend]
    rw [show (base ++ ["x_coord", "y_coord"]).length - 2 = base.length from by simp]
    exact List.take_left' rfl
  · intro A d m hrow
    unfold selectCols dropLastTwoCols
    apply List.map_congr_left
    intro row hmem
    rw [hidx, hrow row hmem]
    exact range_map_getD_eq_take d row (cn.length - 2)
      ((hrow row hmem).symm ▸ Nat.sub_le _ _)

/-- Closed instance of `C10_export_column_alignment`: the manifest
`[label, a, b, x_coord, y_coord]` and a 1×5 matrix; the export keeps the
first three columns in order. -/
theorem C10_export_column_alignment_witness :
    ((["label", "a", "b", "x_coord", "y_coord"] : List String).Nodup ∧
      (["label", "a", "b", "x_coord", "y_coord"] : List String) =
        ["label", "a", "b"] ++ ["x_coord", "y_coord"]) ∧
    model_col_indices ["label", "a", "b", "x_coord", "y_coord"] =
      List.range (["label", "a", "b", "x_coord", "y_coord"].length - 2) ∧
    selectCols (0 : Int) [[10, 1, 2, 3, 4]]
      (model_col_indices ["label", "a", "b", "x_coord", "y_coord"]) =
      dropLastTwoCols [[10, 1, 2, 3, 4]] := by
  have h := C10_export_column_alignment ["label", "a", "b", "x_coord", "y_coord"]
    ["label", "a", "b"] (by decide) rfl
  exact ⟨⟨by decide, rfl⟩, h.1,
    h.2.2 Int 0 [[10, 1, 2, 3, 4]] (by decide)⟩

end TrainingNotebook
